import Mathlib

/-!
Shallow embedding of the Magic-HTML-API service (src/api/extract.py) and
verification of the specification claims about it.

The repository is a single FastAPI endpoint that fetches a URL, decodes the
body, classifies the page layout, extracts content with the external
magic_html library, and converts the result to html / markdown / text.
External effects and libraries (the network, Python codecs, chardet,
magic_html, markdownify, BeautifulSoup parsing) are modelled as explicit
parameters or as small executable models; the original glue logic of the
repository is translated line by line.

Strings are manipulated through their underlying character lists so that
every definition is structurally recursive and evaluates inside the kernel.
-/

/-! ## Generic list and string utilities (models of Python string primitives) -/

/-- Model of Python str.lower() (ASCII case folding, which is all the source
relies on: content types, encoding names, URLs and class names). -/
def lowerStr (s : String) : String :=
  String.mk (s.data.map Char.toLower)

/-- Does the list `s` start with the list `pat`? (Helper for substring search
and for the literal prefixes matched by the source's regexes.) -/
def startsWithL : List Char → List Char → Bool
  | _, [] => true
  | [], _ :: _ => false
  | a :: as, b :: bs => (a == b) && startsWithL as bs

/-- Does `pat` occur as a contiguous substring of `l`? Model of Python's
`pat in s` for strings. -/
def containsSub (pat : List Char) : List Char → Bool
  | [] => startsWithL [] pat
  | c :: rest => startsWithL (c :: rest) pat || containsSub pat rest

/-- Model of Python `pat in hay` on strings. -/
def strContains (hay pat : String) : Bool :=
  containsSub pat.data hay.data

/-- Model of Python str.strip() (default whitespace stripping) on a character
list: drop whitespace from both ends. -/
def stripChars (l : List Char) : List Char :=
  ((l.dropWhile Char.isWhitespace).reverse.dropWhile Char.isWhitespace).reverse

/-- Model of Python str.strip() on strings. -/
def pyStrip (s : String) : String :=
  String.mk (stripChars s.data)

/-- Model of Python `'\n'.join(parts)` (also used for BeautifulSoup's
`get_text(separator='\n')`). -/
def joinNl : List (List Char) → List Char
  | [] => []
  | [x] => x
  | x :: xs => x ++ '\n' :: joinNl xs

/-- Model of Python `text.split('\n')`: split at every newline, keeping empty
parts, accumulator holds the current part reversed. -/
def splitNl : List Char → List Char → List (List Char)
  | [], acc => [acc.reverse]
  | c :: rest, acc =>
    if c = '\n' then acc.reverse :: splitNl rest []
    else splitNl rest (c :: acc)

/-- Fuelled worker for Python `s.split(sep)` with a non-empty separator:
split at each non-overlapping occurrence of `sep`, scanning left to right.
The fuel is always at least the length of the remaining input, so the
fuel-exhausted arm is never reached at the initial fuel used by `pySplit`. -/
def pySplitF (sep : List Char) : Nat → List Char → List Char → List (List Char)
  | 0, l, acc => [acc.reverse ++ l]
  | _ + 1, [], acc => [acc.reverse]
  | f + 1, c :: rest, acc =>
    if sep ≠ [] && startsWithL (c :: rest) sep then
      acc.reverse :: pySplitF sep f (List.drop sep.length (c :: rest)) []
    else
      pySplitF sep f rest (c :: acc)

/-- Model of Python `s.split(sep)` for a non-empty separator string. -/
def pySplit (s sep : String) : List String :=
  (pySplitF sep.data (s.data.length + 1) s.data []).map String.mk

/-- Bool test: does the list contain three consecutive occurrences of `ch`?
Used to state properties about the newline- and '='-collapsing regexes. -/
def hasTriple (ch : Char) : List Char → Bool
  | a :: b :: c :: rest =>
    ((a == ch) && (b == ch) && (c == ch)) || hasTriple ch (b :: c :: rest)
  | _ => false

/-! ## clean_markdown (src/api/extract.py lines 48-66) -/

/-- Replacement emitted for a maximal run of `k` newlines by the regex
substitution `re.sub(r'\n\x7b3,\x7d', '\n\n', text)`: runs of three or more
newlines become exactly two, shorter runs are kept. -/
def emitNl (k : Nat) : List Char :=
  if 3 ≤ k then ['\n', '\n'] else List.replicate k '\n'

/-- Replacement emitted for a maximal run of `k` equals signs by the regex
substitution `re.sub(r'=\x7b3,\x7d', '', text)`: runs of three or more are
deleted, shorter runs are kept. -/
def emitEq (k : Nat) : List Char :=
  if 3 ≤ k then [] else List.replicate k '='

/-- Generic left-to-right scan shared by the two run-collapsing regex
substitutions of clean_markdown: `k` counts the pending run of `ch`; at the
end of a run (or of the input) the run is replaced by `emit k`. This is
exactly how a greedy, non-overlapping `re.sub` over maximal runs behaves. -/
def runCollapse (ch : Char) (emit : Nat → List Char) : List Char → Nat → List Char
  | [], k => emit k
  | c :: rest, k =>
    if c = ch then runCollapse ch emit rest (k + 1)
    else emit k ++ c :: runCollapse ch emit rest 0

/-- Model of `re.sub(r'\n\x7b3,\x7d', '\n\n', text)` (line 59). -/
def collapseNl (l : List Char) : List Char :=
  runCollapse '\n' emitNl l 0

/-- Model of `re.sub(r'=\x7b3,\x7d', '', text)` (line 63). -/
def removeEq (l : List Char) : List Char :=
  runCollapse '=' emitEq l 0

/-- Lazy group scan of the image regex: consume characters up to the first
unescaped `)` and return the group and the remainder; fail on a newline
(`.` does not match newlines) or at the end of the input. -/
def scanGroup : List Char → List Char → Option (List Char × List Char)
  | [], _ => none
  | c :: rest, acc =>
    if c = ')' then some (acc.reverse, rest)
    else if c = '\n' then none
    else scanGroup rest (c :: acc)

/-- Literal prefix of the image regex: an image link with an empty label. -/
def imgPat : List Char := ['!', '[', ']', '(']

/-- Replacement prefix inserted by the image rewrite: the fixed placeholder
label. -/
def imgLabelIns : List Char := "![图片](".data

/-- Fuelled worker for `re.sub(r'!\[\]\((.*?)\)', r'![图片](\1)', text)`
(line 65): at each position, if the literal `![](` matches and a closing
parenthesis is found on the same line, rewrite; otherwise advance one
character. The list shrinks at least as fast as the fuel, so the
fuel-exhausted arm is never reached when starting with fuel = length. -/
def imgRewriteF : Nat → List Char → List Char
  | 0, l => l
  | _ + 1, [] => []
  | f + 1, c :: rest =>
    if startsWithL (c :: rest) imgPat then
      match scanGroup (List.drop 3 rest) [] with
      | some (g, r2) => imgLabelIns ++ g ++ ')' :: imgRewriteF f r2
      | none => c :: imgRewriteF f rest
    else c :: imgRewriteF f rest

/-- Model of the image-label rewrite regex substitution (line 65). -/
def imgRewrite (l : List Char) : List Char :=
  imgRewriteF l.length l

/-- Model of clean_markdown (lines 48-66), step for step:
collapse newline runs, strip each line, delete runs of three or more '=',
rewrite empty image labels, and strip the whole text. -/
def clean_markdown (text : String) : String :=
  let t1 := collapseNl text.data
  let t2 := joinNl ((splitNl t1 []).map stripChars)
  let t3 := removeEq t2
  let t4 := imgRewrite t3
  String.mk (stripChars t4)

/-! ## Python values and the extraction result (extract_html_content, lines 93-105) -/

/-- Minimal model of the Python values flowing out of the external extractor:
strings, dictionaries, None, and a catch-all for any other value carrying its
`str()` rendering. -/
inductive PyVal where
  | str (s : String)
  | dict (entries : List (String × PyVal))
  | pyNone
  | other (rendering : String)

/-- Is the value a Python dict? (Model of `isinstance(data, dict)`.) -/
def isDict : PyVal → Bool
  | .dict _ => true
  | _ => false

/-- Model of Python `dict.get(key)`: first entry with the given key (keys of a
Python dict are unique, so first-match lookup is faithful). -/
def dictGet (es : List (String × PyVal)) (k : String) : Option PyVal :=
  match es with
  | [] => none
  | (k2, v) :: rest => if k2 = k then some v else dictGet rest k

/-- Model of Python `str(v)`. A string renders as itself (so the
`isinstance(html, str)` guard in convert_content keeps strings unchanged);
the renderings of the other shapes are crude stand-ins, and no claim depends
on them. -/
def pyToStr : PyVal → String
  | .str s => s
  | .dict _ => "<dict>"
  | .pyNone => "None"
  | .other r => r

/-- Model of extract_html_content (lines 93-105): for a dict return
`data.get('html', '')`, otherwise return the empty string. -/
def extract_html_content (data : PyVal) : PyVal :=
  match data with
  | .dict es => (dictGet es "html").getD (.str "")
  | _ => .str ""

/-! ## BeautifulSoup get_text model and convert_content (lines 68-91) -/

/-- Splitter behind the BeautifulSoup `html.parser` + `get_text` model: walk
the markup; outside a tag accumulate text characters (accumulator reversed),
a `<` closes the current text node and enters tag mode, a `>` in tag mode
returns to text mode. An unterminated trailing tag is dropped. This is a
simplified model of the external parser: every span between `<` and `>` is
treated as markup, everything else as text. -/
def segsAux : List Char → Bool → List Char → List (List Char)
  | [], inTag, acc => if inTag then [] else [acc.reverse]
  | c :: rest, inTag, acc =>
    if inTag then
      if c = '>' then segsAux rest false [] else segsAux rest true acc
    else
      if c = '<' then acc.reverse :: segsAux rest true []
      else segsAux rest false (c :: acc)

/-- Text nodes of the markup, in document order. -/
def textSegments (l : List Char) : List (List Char) :=
  segsAux l false []

/-- Model of `BeautifulSoup(html, 'html.parser').get_text(separator='\n',
strip=True)` (lines 88-89): strip every text node, drop the ones that become
empty, and join the rest with newlines. -/
def getText (s : String) : String :=
  String.mk (joinNl (((textSegments s.data).map stripChars).filter (fun seg => !seg.isEmpty)))

/-- Model of convert_content (lines 68-91). The external markdownify `md`
function is passed in as the parameter `mdFn`; the `isinstance(html, str)`
coercion is `pyToStr`. -/
def convert_content (mdFn : String → String) (html : PyVal) (output_format : String) : String :=
  let h := pyToStr html
  if output_format = "html" then h
  else if output_format = "markdown" then clean_markdown (mdFn h)
  else if output_format = "text" then getText h
  else h

/-! ## detect_html_type (lines 107-145) -/

/-- Model of a parsed HTML element as far as detect_html_type inspects it:
its class attribute (a list of class names, when present) and its id
attribute (when present). -/
structure HtmlElement where
  classes : Option (List String)
  id : Option String

/-- URL substrings checked for the weixin label (line 120). -/
def weixin_domains : List String := ["mp.weixin.qq.com", "weixin.qq.com"]

/-- Forum indicator keywords (lines 127-130). -/
def forum_indicators : List String :=
  ["forum", "topic", "thread", "post", "reply", "comment", "discuss",
   "论坛", "帖子", "回复", "评论", "讨论"]

/-- The URL test of detect_html_type (lines 119-121): a case-insensitive
substring check of each weixin domain against the whole URL. -/
def urlIsWeixin (url : String) : Bool :=
  weixin_domains.any (fun d => strContains (lowerStr url) d)

/-- The class/id vocabulary of the page (lines 133-139): all class names of
elements having a class attribute, then all ids of elements having an id,
joined with spaces and lowercased. -/
def classesAndIds (doc : List HtmlElement) : String :=
  lowerStr (String.mk (joinNl
    (((doc.filterMap (fun e => e.classes)).flatten ++ doc.filterMap (fun e => e.id)).map
      (fun s => s.data))))

/-- The forum test of detect_html_type (line 141): some forum indicator is a
substring of the joined class/id vocabulary. -/
def hasForumIndicator (doc : List HtmlElement) : Bool :=
  forum_indicators.any (fun ind => strContains (classesAndIds doc) ind)

/-- Model of detect_html_type (lines 107-145); `parse` stands for the external
BeautifulSoup parse producing the elements the function inspects. -/
def detect_html_type (parse : String → List HtmlElement) (html url : String) : String :=
  if urlIsWeixin url then "weixin"
  else if hasForumIndicator (parse html) then "forum"
  else "article"

/-! ## fetch_url (lines 13-46) -/

/-- Model of the codec environment:
`decode enc bytes` is Python `bytes.decode(enc)`, `none` standing for a raised
UnicodeDecodeError or LookupError; `detect bytes` is
`chardet.detect(bytes)['encoding']`, `none` standing for a None detection. -/
structure Codecs where
  decode : String → List Nat → Option String
  detect : List Nat → Option String

/-- Model of an httpx response: status code, content-type header (empty
string when the header is missing, matching `headers.get('content-type', '')`)
and the raw body bytes. -/
structure HttpResponse where
  status : Nat
  contentType : String
  body : List Nat
  deriving DecidableEq

/-- Outcome of fetch_url: decoded text together with the codec that produced
it (the codec name is instrumentation recorded by the model so that the
decoding policy can be stated; the source returns only the text), or the
HTTPException(status_code=400) raised by the function's except branch. -/
inductive FetchResult where
  | ok (text : String) (encodingUsed : String)
  | fetchError
  deriving DecidableEq

/-- HTTP status raised by fetch_url, if any: every failure path of the
function raises HTTPException(status_code=400) (line 46). -/
def FetchResult.raisedStatus : FetchResult → Option Nat
  | .fetchError => some 400
  | .ok _ _ => none

/-- Charset extraction from the content-type header (lines 20-24): lowercase
the header; when it contains `charset=`, take what follows the last
occurrence up to the next semicolon, i.e.
`content_type.split('charset=')[-1].split(';')[0]`. -/
def headerCharset (contentType : String) : Option String :=
  let ct := lowerStr contentType
  if strContains ct "charset=" then
    some ((pySplit ((pySplit ct "charset=").getLastD "") ";").headD "")
  else none

/-- Encoding chosen by the chardet fallback (lines 35-43): the detected
encoding, with GB18030 substituted for GB2312/GBK detections
(`if encoding and encoding.lower() in ['gb2312', 'gbk']`), and `utf-8` when
the detection is None or empty (`encoding or 'utf-8'`). -/
def detectedEncoding (c : Codecs) (body : List Nat) : String :=
  match c.detect body with
  | none => "utf-8"
  | some e =>
    if e = "" then "utf-8"
    else if lowerStr e = "gb2312" ∨ lowerStr e = "gbk" then "gb18030"
    else e

/-- UTF-8 then chardet fallback of fetch_url (lines 30-43), reached when the
header declares no charset or the header-declared decode fails. A failure of
the final decode propagates to the function's outer except branch, which
raises HTTPException(400) (lines 45-46). -/
def fetchDecodeFallback (c : Codecs) (resp : HttpResponse) : FetchResult :=
  match c.decode "utf-8" resp.body with
  | some t => .ok t "utf-8"
  | none =>
    let enc := detectedEncoding c resp.body
    match c.decode enc resp.body with
    | some t => .ok t enc
    | none => .fetchError

/-- Model of fetch_url (lines 13-46). `network url` is the outcome of
`client.get(url)` (`none` standing for a raised network error);
`raise_for_status` raises for every non-2xx status. The header-declared
charset is tried first; its absence or any failure in that branch falls
through to the UTF-8/chardet fallback (the bare `except: pass` at lines
26-27). Every failure raises HTTPException(400). -/
def fetch_url (c : Codecs) (network : String → Option HttpResponse) (url : String) : FetchResult :=
  match network url with
  | none => .fetchError
  | some resp =>
    if resp.status < 200 ∨ 300 ≤ resp.status then .fetchError
    else
      match headerCharset resp.contentType with
      | some cs =>
        match c.decode cs resp.body with
        | some t => .ok t cs
        | none => fetchDecodeFallback c resp
      | none => fetchDecodeFallback c resp

/-! ## The endpoint extract_content (lines 147-185) -/

/-- Success payload of the endpoint (lines 176-182). -/
structure Payload where
  url : String
  content : String
  format : String
  type : String
  success : Bool
  deriving DecidableEq

/-- Endpoint outcome: a JSON payload or a raised HTTPException. -/
inductive EndpointResult where
  | ok (payload : Payload)
  | error (status : Nat)
  deriving DecidableEq

/-- FastAPI default for the optional `output_format` query parameter
(line 150): absent means "text". -/
def resolveFormat (output_format : Option String) : String :=
  output_format.getD "text"

/-- Environment of one request: codecs, the network, the external magic_html
extractor (`none` standing for a raised exception), the external markdownify
conversion, and the external BeautifulSoup parse used by detect_html_type. -/
structure Env where
  codecs : Codecs
  network : String → Option HttpResponse
  extract : String → String → String → Option PyVal
  mdFn : String → String
  parse : String → List HtmlElement

/-- Model of the endpoint extract_content (lines 147-185). The whole body
runs inside `try ... except Exception as e: raise HTTPException(500, str(e))`.
FastAPI's HTTPException derives from Exception, so the HTTPException(400)
raised by fetch_url is caught by that blanket handler and re-raised with
status 500: every failure of the endpoint, fetch failures included, surfaces
as HTTP 500. -/
def extract_content (env : Env) (url : String) (output_format : Option String) : EndpointResult :=
  let fmt := resolveFormat output_format
  match fetch_url env.codecs env.network url with
  | .fetchError => .error 500
  | .ok html _ =>
    let html_type := detect_html_type env.parse html url
    match env.extract html url html_type with
    | none => .error 500
    | some data =>
      let html_content := extract_html_content data
      let converted := convert_content env.mdFn html_content fmt
      .ok { url := url, content := converted, format := fmt,
            type := html_type, success := true }

/-! ## Concrete instances used by counterexamples and witnesses -/

/-- Does the text contain an image link with an empty label, i.e. an
occurrence of the literal prefix matched by the image rewrite regex? -/
def hasEmptyImg (l : List Char) : Bool :=
  containsSub imgPat l

/-- Codec environment in which every decode fails and detection returns
nothing: it stands for a body that no attempted codec can decode. -/
def noCodecs : Codecs :=
  { decode := fun _ _ => none, detect := fun _ => none }

/-- Network on which every GET raises a connection error (unreachable URL). -/
def deadNetwork : String → Option HttpResponse :=
  fun _ => none

/-- Request environment with an unreachable network. -/
def c1Env : Env :=
  { codecs := noCodecs, network := deadNetwork,
    extract := fun _ _ _ => some (.dict []),
    mdFn := fun s => s, parse := fun _ => [] }

/-- A 200 response whose bytes no codec can decode (paired with noCodecs). -/
def binResp : HttpResponse :=
  { status := 200, contentType := "application/octet-stream", body := [255, 254] }

/-- Codec environment in which the gb2312 codec succeeds on the concrete
GB2312 bytes [196, 227] and every other decode fails. -/
def gbCodecs : Codecs :=
  { decode := fun e b => if e == "gb2312" && b == [196, 227] then some "你" else none,
    detect := fun _ => some "GB2312" }

/-- A 200 response declaring charset=gb2312 with GB2312-encoded body bytes. -/
def gbResp : HttpResponse :=
  { status := 200, contentType := "text/html; charset=gb2312", body := [196, 227] }

/-- Codec environment in which only the gb18030 codec succeeds and detection
reports GB2312: exercises the chardet fallback with GB18030 substitution. -/
def gbDetCodecs : Codecs :=
  { decode := fun e _ => if e == "gb18030" then some "好" else none,
    detect := fun _ => some "GB2312" }

/-- Request environment whose fetch succeeds and whose extractor returns a
non-dict value. -/
def env8 : Env :=
  { codecs := { decode := fun _ _ => some "<p>hi</p>", detect := fun _ => none },
    network := fun _ => some { status := 200, contentType := "", body := [] },
    extract := fun _ _ _ => some (.other "NotADict"),
    mdFn := fun s => s, parse := fun _ => [] }

/-! ## Helper lemmas about hasTriple and runCollapse -/

/-- Lists of length at most two contain no triple. -/
theorem hasTriple_short (ch : Char) (l : List Char) (h : l.length ≤ 2) :
    hasTriple ch l = false := by
  match l with
  | [] => rfl
  | [_] => rfl
  | [_, _] => rfl
  | _ :: _ :: _ :: _ => simp at h

/-- Dropping a head that differs from `ch` does not affect triple detection. -/
theorem hasTriple_cons_ne {ch a : Char} (h : a ≠ ch) (l : List Char) :
    hasTriple ch (a :: l) = hasTriple ch l := by
  match l with
  | [] => rfl
  | [_] => rfl
  | b :: c :: rest => simp [hasTriple, beq_eq_false_iff_ne.mpr h]

/-- Dropping two heads whose second differs from `ch` does not affect triple
detection. -/
theorem hasTriple_cons2_ne {ch b : Char} (h : b ≠ ch) (a : Char) (l : List Char) :
    hasTriple ch (a :: b :: l) = hasTriple ch l := by
  match l with
  | [] => rfl
  | c :: rest =>
    rw [show hasTriple ch (a :: b :: c :: rest)
        = (((a == ch) && (b == ch) && (c == ch)) || hasTriple ch (b :: c :: rest)) from rfl]
    rw [hasTriple_cons_ne h]
    simp [beq_eq_false_iff_ne.mpr h]

/-- Dropping three heads whose third differs from `ch` does not affect triple
detection. -/
theorem hasTriple_cons3_ne {ch c : Char} (h : c ≠ ch) (a b : Char) (l : List Char) :
    hasTriple ch (a :: b :: c :: l) = hasTriple ch l := by
  rw [show hasTriple ch (a :: b :: c :: l)
      = (((a == ch) && (b == ch) && (c == ch)) || hasTriple ch (b :: c :: l)) from rfl]
  rw [hasTriple_cons2_ne h]
  simp [beq_eq_false_iff_ne.mpr h]

/-- Prepending at most two characters followed by a separator that differs
from `ch` does not affect triple detection. -/
theorem hasTriple_append_sep {ch c : Char} (h : c ≠ ch) (e : List Char)
    (he : e.length ≤ 2) (T : List Char) :
    hasTriple ch (e ++ c :: T) = hasTriple ch T := by
  match e with
  | [] => exact hasTriple_cons_ne h T
  | [x] => exact hasTriple_cons2_ne h x T
  | [x, y] => exact hasTriple_cons3_ne h x y T
  | _ :: _ :: _ :: _ => simp at he

/-- A run-collapsing scan whose emitted replacements have length at most two
never produces a triple of the collapsed character. -/
theorem runCollapse_noTriple (ch : Char) (emit : Nat → List Char)
    (hlen : ∀ k, (emit k).length ≤ 2) :
    ∀ (l : List Char) (k : Nat), hasTriple ch (runCollapse ch emit l k) = false := by
  intro l
  induction l with
  | nil => intro k; exact hasTriple_short ch _ (hlen k)
  | cons c rest ih =>
    intro k
    by_cases hc : c = ch
    · rw [show runCollapse ch emit (c :: rest) k
          = if c = ch then runCollapse ch emit rest (k + 1)
            else emit k ++ c :: runCollapse ch emit rest 0 from rfl]
      rw [if_pos hc]
      exact ih (k + 1)
    · rw [show runCollapse ch emit (c :: rest) k
          = if c = ch then runCollapse ch emit rest (k + 1)
            else emit k ++ c :: runCollapse ch emit rest 0 from rfl]
      rw [if_neg hc]
      rw [hasTriple_append_sep hc _ (hlen k)]
      exact ih 0

/-- The newline replacement never exceeds two characters. -/
theorem emitNl_len (k : Nat) : (emitNl k).length ≤ 2 := by
  unfold emitNl
  by_cases h : 3 ≤ k
  · simp [h]
  · simp [h]; omega

/-- The equals-sign replacement never exceeds two characters. -/
theorem emitEq_len (k : Nat) : (emitEq k).length ≤ 2 := by
  unfold emitEq
  by_cases h : 3 ≤ k
  · simp [h]
  · simp [h]; omega

/-- With no empty-label image link in the input, the image rewrite is the
identity, whatever the fuel. -/
theorem imgRewriteF_id (f : Nat) : ∀ l : List Char, hasEmptyImg l = false → imgRewriteF f l = l := by
  induction f with
  | zero => intro l _; rfl
  | succ f ih =>
    intro l h
    match l with
    | [] => rfl
    | c :: rest =>
      have h2 : (startsWithL (c :: rest) imgPat || containsSub imgPat rest) = false := h
      rw [Bool.or_eq_false_iff] at h2
      rw [show imgRewriteF (f + 1) (c :: rest)
          = if startsWithL (c :: rest) imgPat then
              (match scanGroup (List.drop 3 rest) [] with
               | some (g, r2) => imgLabelIns ++ g ++ ')' :: imgRewriteF f r2
               | none => c :: imgRewriteF f rest)
            else c :: imgRewriteF f rest from rfl]
      rw [if_neg (by simp [h2.1])]
      rw [ih rest h2.2]

/-! ## Helper lemmas about getText -/

/-- Stripping only removes characters. -/
theorem mem_stripChars {c : Char} {l : List Char} (h : c ∈ stripChars l) : c ∈ l := by
  unfold stripChars at h
  rw [List.mem_reverse] at h
  have h2 := (List.dropWhile_sublist _).mem h
  rw [List.mem_reverse] at h2
  exact (List.dropWhile_sublist _).mem h2

/-- Every character of a newline join is a newline or comes from one of the
joined parts. -/
theorem mem_joinNl {c : Char} : ∀ (ls : List (List Char)),
    c ∈ joinNl ls → c = '\n' ∨ ∃ l, l ∈ ls ∧ c ∈ l
  | [], h => absurd h (List.not_mem_nil c)
  | [x], h => Or.inr ⟨x, List.mem_cons_self x [], h⟩
  | x :: y :: ys, h => by
    rw [show joinNl (x :: y :: ys) = x ++ '\n' :: joinNl (y :: ys) from rfl] at h
    rcases List.mem_append.mp h with h1 | h2
    · exact Or.inr ⟨x, List.mem_cons_self x _, h1⟩
    · rcases List.mem_cons.mp h2 with h3 | h4
      · exact Or.inl h3
      · rcases mem_joinNl (y :: ys) h4 with h5 | ⟨l, hl, hc⟩
        · exact Or.inl h5
        · exact Or.inr ⟨l, List.mem_cons_of_mem x hl, hc⟩

/-- No text segment produced by the tag splitter contains an opening angle
bracket, provided the accumulator contains none. -/
theorem segsAux_no_lt : ∀ (l : List Char) (inTag : Bool) (acc : List Char),
    '<' ∉ acc → ∀ seg ∈ segsAux l inTag acc, '<' ∉ seg := by
  intro l
  induction l with
  | nil =>
    intro inTag acc hacc seg hseg
    cases inTag with
    | true => simp [segsAux] at hseg
    | false =>
      simp [segsAux] at hseg
      subst hseg
      simpa using hacc
  | cons c rest ih =>
    intro inTag acc hacc seg hseg
    cases inTag with
    | true =>
      by_cases h : c = '>'
      · simp [segsAux, h] at hseg
        exact ih false [] (by simp) seg hseg
      · simp [segsAux, h] at hseg
        exact ih true acc hacc seg hseg
    | false =>
      by_cases h : c = '<'
      · simp [segsAux, h] at hseg
        rcases hseg with h1 | h2
        · subst h1; simpa using hacc
        · exact ih true [] (by simp) seg h2
      · simp [segsAux, h] at hseg
        refine ih false (c :: acc) ?_ seg hseg
        intro hm
        rcases List.mem_cons.mp hm with h1 | h2
        · exact h h1.symm
        · exact hacc h2

/-- The text extracted by the get_text model contains no opening angle
bracket, hence no markup tag. -/
theorem getText_no_lt (s : String) : ∀ c ∈ (getText s).data, c ≠ '<' := by
  intro c hc
  rw [show (getText s).data
      = joinNl (((textSegments s.data).map stripChars).filter (fun seg => !seg.isEmpty)) from rfl] at hc
  rcases mem_joinNl _ hc with h1 | ⟨l, hl, hcl⟩
  · subst h1; decide
  · intro heq
    subst heq
    have hl2 := List.mem_of_mem_filter hl
    rcases List.mem_map.mp hl2 with ⟨seg, hseg, rfl⟩
    exact segsAux_no_lt s.data false [] (by simp) seg hseg (mem_stripChars hcl)

/-! ## Helper lemmas about the fetch_url decode policy -/

/-- A network error makes fetch_url raise its 400 error. -/
theorem fetch_net_none (c : Codecs) (n : String → Option HttpResponse) (url : String)
    (h : n url = none) : fetch_url c n url = .fetchError := by
  unfold fetch_url
  rw [h]

/-- A non-2xx status makes fetch_url raise its 400 error
(raise_for_status). -/
theorem fetch_bad_status (c : Codecs) (n : String → Option HttpResponse) (url : String)
    (resp : HttpResponse) (h : n url = some resp)
    (hs : resp.status < 200 ∨ 300 ≤ resp.status) : fetch_url c n url = .fetchError := by
  simp only [fetch_url, h]
  rw [if_pos hs]

/-- When the header declares a charset and that codec decodes the body, its
result is returned and that codec is the one used. -/
theorem fetch_header_ok (c : Codecs) (n : String → Option HttpResponse) (url : String)
    (resp : HttpResponse) (cs t : String) (h : n url = some resp)
    (h200 : 200 ≤ resp.status) (h300 : resp.status < 300)
    (hcs : headerCharset resp.contentType = some cs)
    (hdec : c.decode cs resp.body = some t) :
    fetch_url c n url = .ok t cs := by
  simp only [fetch_url, h]
  rw [if_neg (by omega)]
  simp only [hcs, hdec]

/-- When the header declares no charset, fetch_url falls through to the
UTF-8/chardet fallback. -/
theorem fetch_header_none (c : Codecs) (n : String → Option HttpResponse) (url : String)
    (resp : HttpResponse) (h : n url = some resp)
    (h200 : 200 ≤ resp.status) (h300 : resp.status < 300)
    (hcs : headerCharset resp.contentType = none) :
    fetch_url c n url = fetchDecodeFallback c resp := by
  simp only [fetch_url, h]
  rw [if_neg (by omega)]
  simp only [hcs]

/-- When the header-declared charset fails to decode the body, fetch_url
falls through to the UTF-8/chardet fallback. -/
theorem fetch_header_fail (c : Codecs) (n : String → Option HttpResponse) (url : String)
    (resp : HttpResponse) (cs : String) (h : n url = some resp)
    (h200 : 200 ≤ resp.status) (h300 : resp.status < 300)
    (hcs : headerCharset resp.contentType = some cs)
    (hdec : c.decode cs resp.body = none) :
    fetch_url c n url = fetchDecodeFallback c resp := by
  simp only [fetch_url, h]
  rw [if_neg (by omega)]
  simp only [hcs, hdec]

/-- The fallback tries UTF-8 first. -/
theorem fallback_utf8 (c : Codecs) (resp : HttpResponse) (t : String)
    (h : c.decode "utf-8" resp.body = some t) :
    fetchDecodeFallback c resp = .ok t "utf-8" := by
  unfold fetchDecodeFallback
  rw [h]

/-- A GB2312 or GBK detection is substituted by GB18030. -/
theorem detected_gb_subst (c : Codecs) (body : List Nat) (e : String)
    (hdet : c.detect body = some e)
    (hgb : lowerStr e = "gb2312" ∨ lowerStr e = "gbk") :
    detectedEncoding c body = "gb18030" := by
  simp only [detectedEncoding, hdet]
  have hne : e ≠ "" := by
    intro he
    subst he
    rcases hgb with h1 | h1 <;> exact absurd h1 (by decide)
  rw [if_neg hne, if_pos hgb]

/-- When UTF-8 fails, the body is decoded with the detected encoding. -/
theorem fallback_detected_ok (c : Codecs) (resp : HttpResponse) (t : String)
    (h8 : c.decode "utf-8" resp.body = none)
    (hdec : c.decode (detectedEncoding c resp.body) resp.body = some t) :
    fetchDecodeFallback c resp = .ok t (detectedEncoding c resp.body) := by
  unfold fetchDecodeFallback
  rw [h8]
  simp only []
  rw [hdec]

/-- When UTF-8 and the detected encoding both fail, the fallback raises the
same 400 error as every other failure of fetch_url. -/
theorem fallback_fail (c : Codecs) (resp : HttpResponse)
    (h8 : c.decode "utf-8" resp.body = none)
    (hdec : c.decode (detectedEncoding c resp.body) resp.body = none) :
    fetchDecodeFallback c resp = .fetchError := by
  unfold fetchDecodeFallback
  rw [h8]
  simp only []
  rw [hdec]

/-- The only status fetch_url ever raises is 400. -/
theorem fetch_only_400 (r : FetchResult) (s : Nat) (h : r.raisedStatus = some s) :
    s = 400 := by
  cases r with
  | ok t e => simp [FetchResult.raisedStatus] at h
  | fetchError =>
    simp [FetchResult.raisedStatus] at h
    omega

/-! ## Claim theorems -/

/-- Claim C1 (code bug): the claim says a failed fetch (e.g. an unreachable
URL) yields HTTP 400 and only extraction/conversion failures yield HTTP 500.
On the code, fetch_url does raise HTTPException(400) — shown by the second
and third conjuncts — but HTTPException derives from Exception, so the
endpoint's blanket `except Exception` (line 184) catches it and re-raises it
as HTTPException(500): the endpoint answers an unreachable URL with HTTP 500,
not 400. -/
theorem unreachable_url_returns_500 :
    extract_content c1Env "http://unreachable.invalid/" none = .error 500
    ∧ fetch_url c1Env.codecs c1Env.network "http://unreachable.invalid/" = .fetchError
    ∧ FetchResult.raisedStatus
        (fetch_url c1Env.codecs c1Env.network "http://unreachable.invalid/") = some 400 :=
  ⟨rfl, rfl, rfl⟩

/-- Claim C2 counterexample: a response whose Content-Type header declares
charset=gb2312 and whose body the gb2312 codec decodes is decoded using the
gb2312 codec itself — the recorded encoding is "gb2312", not "gb18030". The
GB18030 substitution of lines 38-40 lives only in the chardet fallback and is
never applied to the header-declared charset. -/
theorem gb2312_header_cex :
    fetch_url gbCodecs (fun _ => some gbResp) "http://gb.example.cn/" = .ok "你" "gb2312" := by
  decide

/-- Claim C2 (amended): a header-declared charset — gb2312 included — is used
as-is whenever it decodes the body; GB18030 is substituted for GB2312/GBK
only in the fallback path, i.e. when the header charset is absent or fails,
UTF-8 fails, and byte-level detection reports GB2312 or GBK. -/
theorem gb18030_policy_amended :
    (∀ (c : Codecs) (n : String → Option HttpResponse) (url : String)
       (resp : HttpResponse) (t : String),
      n url = some resp → 200 ≤ resp.status → resp.status < 300 →
      headerCharset resp.contentType = some "gb2312" →
      c.decode "gb2312" resp.body = some t →
      fetch_url c n url = .ok t "gb2312")
    ∧ (∀ (c : Codecs) (resp : HttpResponse) (t e : String),
      c.decode "utf-8" resp.body = none →
      c.detect resp.body = some e →
      lowerStr e = "gb2312" ∨ lowerStr e = "gbk" →
      c.decode "gb18030" resp.body = some t →
      fetchDecodeFallback c resp = .ok t "gb18030") := by
  constructor
  · intro c n url resp t h h200 h300 hcs hdec
    exact fetch_header_ok c n url resp "gb2312" t h h200 h300 hcs hdec
  · intro c resp t e h8 hdet hgb hdec
    have hsub := detected_gb_subst c resp.body e hdet hgb
    have := fallback_detected_ok c resp t h8 (by rw [hsub]; exact hdec)
    rw [hsub] at this
    exact this

/-- Claim C2 witness for the amended statement: with codecs in which UTF-8
fails, detection reports GB2312 and only the gb18030 codec succeeds, the
fallback decodes with GB18030. -/
theorem gb18030_policy_amended_witness :
    lowerStr "GB2312" = "gb2312"
    ∧ fetchDecodeFallback gbDetCodecs gbResp = .ok "好" "gb18030" :=
  ⟨by decide,
   gb18030_policy_amended.2 gbDetCodecs gbResp "好" "GB2312" rfl rfl (Or.inl (by decide)) rfl⟩

/-- Claim C3 counterexample: clean_markdown can output three consecutive
newlines. On "a\n \n \nb" the newline-collapsing step (which runs first)
finds no run of three newlines, and the subsequent per-line stripping turns
the whitespace-only lines into empty lines, producing "a\n\n\nb" — two
consecutive blank lines in the final output. -/
theorem clean_markdown_blank_lines_cex :
    clean_markdown "a\n \n \nb" = "a\n\n\nb"
    ∧ hasTriple '\n' (clean_markdown "a\n \n \nb").data = true :=
  ⟨by decide, by decide⟩

/-- Claim C3 (amended): the collapse step itself guarantees the property —
its output never contains three consecutive newlines, and runs of three or
more newlines become exactly two (second conjunct shows a five-newline run
collapsing, third shows the guarantee surviving through clean_markdown when
no later step reintroduces blank lines) — but the per-line stripping that
runs afterwards can create new newline runs, so the property does not hold
of the final clean_markdown output (see the counterexample). -/
theorem collapse_no_triple_newlines :
    (∀ l : List Char, hasTriple '\n' (collapseNl l) = false)
    ∧ collapseNl "a\n\n\n\n\nb".data = "a\n\nb".data
    ∧ clean_markdown "a\n\n\n\nb" = "a\n\nb" :=
  ⟨fun l => runCollapse_noTriple '\n' emitNl emitNl_len l 0, by decide, by decide⟩

/-- Claim C4: the type classifier applies its rules in order with the first
match winning — a weixin URL always yields "weixin" regardless of content, a
forum indicator in the class/id vocabulary yields "forum" only when the URL
rule did not fire, the default is "article", and the result always belongs to
the closed label set. -/
theorem detect_type_rules (parse : String → List HtmlElement) (html url : String) :
    detect_html_type parse html url ∈ (["article", "forum", "weixin"] : List String)
    ∧ (strContains (lowerStr url) "mp.weixin.qq.com" = true →
        detect_html_type parse html url = "weixin")
    ∧ (urlIsWeixin url = true → detect_html_type parse html url = "weixin")
    ∧ (urlIsWeixin url = false → hasForumIndicator (parse html) = true →
        detect_html_type parse html url = "forum")
    ∧ (urlIsWeixin url = false → hasForumIndicator (parse html) = false →
        detect_html_type parse html url = "article") := by
  refine ⟨?_, ?_, ?_, ?_, ?_⟩
  · unfold detect_html_type
    by_cases h1 : urlIsWeixin url
    · simp [h1]
    · by_cases h2 : hasForumIndicator (parse html) <;> simp [h1, h2]
  · intro h
    have hw : urlIsWeixin url = true := by
      simp [urlIsWeixin, weixin_domains, h]
    simp [detect_html_type, hw]
  · intro h
    simp [detect_html_type, h]
  · intro h1 h2
    simp [detect_html_type, h1, h2]
  · intro h1 h2
    simp [detect_html_type, h1, h2]

/-- Claim C4 witness: a weixin article URL classifies as "weixin" whatever
the page content. -/
theorem detect_type_rules_witness :
    urlIsWeixin "https://mp.weixin.qq.com/s/abc" = true
    ∧ detect_html_type (fun _ => []) "<html></html>" "https://mp.weixin.qq.com/s/abc" = "weixin" :=
  ⟨by decide,
   (detect_type_rules (fun _ => []) "<html></html>" "https://mp.weixin.qq.com/s/abc").2.2.1
     (by decide)⟩

/-- Claim C5 counterexample: a concrete input where the fetch itself succeeds
(status 200) but every decode — the header charset is absent, UTF-8 fails,
and the detected encoding fails — is unrecoverable. The fetcher does not
surface a 500 server error: the decode failure is caught by fetch_url's own
`except Exception` and raised as the 400 client error. -/
theorem decode_failure_cex :
    fetch_url noCodecs (fun _ => some binResp) "http://bin.example/" = .fetchError
    ∧ FetchResult.raisedStatus
        (fetch_url noCodecs (fun _ => some binResp) "http://bin.example/") = some 400 :=
  ⟨by decide, by decide⟩

/-- Claim C5 (amended): decoding proceeds in the claimed order —
header-declared charset first, then UTF-8, then the detected encoding with
the GB18030 substitution — and any fetch failure (network error or non-2xx
status) raises HTTP 400; but an unrecoverable decode failure does not bubble
up as a 500 server error: it is caught by the same handler and also raises
HTTP 400 (the last conjunct: 400 is the only status fetch_url ever
raises). -/
theorem fetch_policy_amended :
    (∀ (c : Codecs) (n : String → Option HttpResponse) (url : String),
      n url = none → fetch_url c n url = .fetchError)
    ∧ (∀ (c : Codecs) (n : String → Option HttpResponse) (url : String)
         (resp : HttpResponse),
      n url = some resp → resp.status < 200 ∨ 300 ≤ resp.status →
      fetch_url c n url = .fetchError)
    ∧ (∀ (c : Codecs) (n : String → Option HttpResponse) (url : String)
         (resp : HttpResponse) (cs t : String),
      n url = some resp → 200 ≤ resp.status → resp.status < 300 →
      headerCharset resp.contentType = some cs →
      c.decode cs resp.body = some t →
      fetch_url c n url = .ok t cs)
    ∧ (∀ (c : Codecs) (n : String → Option HttpResponse) (url : String)
         (resp : HttpResponse),
      n url = some resp → 200 ≤ resp.status → resp.status < 300 →
      headerCharset resp.contentType = none →
      fetch_url c n url = fetchDecodeFallback c resp)
    ∧ (∀ (c : Codecs) (n : String → Option HttpResponse) (url : String)
         (resp : HttpResponse) (cs : String),
      n url = some resp → 200 ≤ resp.status → resp.status < 300 →
      headerCharset resp.contentType = some cs →
      c.decode cs resp.body = none →
      fetch_url c n url = fetchDecodeFallback c resp)
    ∧ (∀ (c : Codecs) (resp : HttpResponse) (t : String),
      c.decode "utf-8" resp.body = some t →
      fetchDecodeFallback c resp = .ok t "utf-8")
    ∧ (∀ (c : Codecs) (resp : HttpResponse) (e : String),
      c.detect resp.body = some e →
      lowerStr e = "gb2312" ∨ lowerStr e = "gbk" →
      detectedEncoding c resp.body = "gb18030")
    ∧ (∀ (c : Codecs) (resp : HttpResponse) (t : String),
      c.decode "utf-8" resp.body = none →
      c.decode (detectedEncoding c resp.body) resp.body = some t →
      fetchDecodeFallback c resp = .ok t (detectedEncoding c resp.body))
    ∧ (∀ (c : Codecs) (resp : HttpResponse),
      c.decode "utf-8" resp.body = none →
      c.decode (detectedEncoding c resp.body) resp.body = none →
      fetchDecodeFallback c resp = .fetchError)
    ∧ (∀ (c : Codecs) (n : String → Option HttpResponse) (url : String) (s : Nat),
      (fetch_url c n url).raisedStatus = some s → s = 400) := by
  refine ⟨fetch_net_none, fetch_bad_status, ?_, fetch_header_none, fetch_header_fail,
          fallback_utf8, ?_, fallback_detected_ok, fallback_fail, ?_⟩
  · intro c n url resp cs t h h200 h300 hcs hdec
    exact fetch_header_ok c n url resp cs t h h200 h300 hcs hdec
  · intro c resp e hdet hgb
    exact detected_gb_subst c resp.body e hdet hgb
  · intro c n url s h
    exact fetch_only_400 _ s h

/-- Claim C5 witness for the amended statement: a network error raises the
400 fetch error. -/
theorem fetch_policy_amended_witness :
    deadNetwork "http://down.example/" = none
    ∧ fetch_url noCodecs deadNetwork "http://down.example/" = .fetchError :=
  ⟨rfl, fetch_policy_amended.1 noCodecs deadNetwork "http://down.example/" rfl⟩

/-- Claim C6: convert_content returns the extracted markup unchanged for any
output_format outside the three known values, and the endpoint's optional
output_format parameter defaults to "text". -/
theorem unknown_format_fallback :
    (∀ (mdFn : String → String) (h : String) (fmt : String),
      fmt ≠ "html" → fmt ≠ "markdown" → fmt ≠ "text" →
      convert_content mdFn (.str h) fmt = h)
    ∧ resolveFormat none = "text" := by
  constructor
  · intro mdFn h fmt h1 h2 h3
    simp [convert_content, pyToStr, h1, h2, h3]
  · rfl

/-- Claim C6 witness: an unknown format value returns the markup unchanged. -/
theorem unknown_format_fallback_witness :
    ("xml" ≠ "html" ∧ "xml" ≠ "markdown" ∧ "xml" ≠ "text")
    ∧ convert_content (fun s => s) (.str "<b>raw</b>") "xml" = "<b>raw</b>" :=
  ⟨⟨by decide, by decide, by decide⟩,
   unknown_format_fallback.1 (fun s => s) "<b>raw</b>" "xml"
     (by decide) (by decide) (by decide)⟩

/-- Claim C7: conversion with output_format "text" is exactly the get_text
model — the markup parsed and its text nodes stripped and joined with
newlines — and the result contains no opening angle bracket, hence no markup
tag. -/
theorem text_format_no_tags (mdFn : String → String) (html : PyVal) :
    convert_content mdFn html "text" = getText (pyToStr html)
    ∧ (convert_content mdFn html "text").data.all (fun c => c != '<') = true := by
  constructor
  · rfl
  · rw [show convert_content mdFn html "text" = getText (pyToStr html) from rfl]
    rw [List.all_eq_true]
    intro c hc
    simpa using getText_no_lt (pyToStr html) c hc

/-- Claim C8: a non-dict extraction result, or a dict without an "html" key,
yields the empty extracted markup, and the endpoint still answers with
success true and the conversion of the empty markup as content (which for
the "text" and "html" formats is the empty string) rather than with an
error. -/
theorem empty_extraction_success :
    (∀ d : PyVal, isDict d = false → extract_html_content d = .str "")
    ∧ (∀ es : List (String × PyVal), dictGet es "html" = none →
        extract_html_content (.dict es) = .str "")
    ∧ (∀ (env : Env) (url : String) (ofmt : Option String) (t e : String) (d : PyVal),
        fetch_url env.codecs env.network url = .ok t e →
        env.extract t url (detect_html_type env.parse t url) = some d →
        extract_html_content d = .str "" →
        extract_content env url ofmt =
          .ok { url := url,
                content := convert_content env.mdFn (.str "") (resolveFormat ofmt),
                format := resolveFormat ofmt,
                type := detect_html_type env.parse t url,
                success := true })
    ∧ (∀ mdFn : String → String,
        convert_content mdFn (.str "") "text" = ""
        ∧ convert_content mdFn (.str "") "html" = "") := by
  refine ⟨?_, ?_, ?_, ?_⟩
  · intro d h
    cases d with
    | dict es => simp [isDict] at h
    | str s => rfl
    | pyNone => rfl
    | other r => rfl
  · intro es h
    simp [extract_html_content, h]
  · intro env url ofmt t e d h1 h2 h3
    simp only [extract_content, h1, h2, h3]
  · intro mdFn
    exact ⟨rfl, rfl⟩

/-- Claim C8 witness: a fetch that succeeds followed by an extractor that
returns a non-dict value still produces a success payload. -/
theorem empty_extraction_success_witness :
    fetch_url env8.codecs env8.network "http://a.example/" = .ok "<p>hi</p>" "utf-8"
    ∧ extract_html_content (.other "NotADict") = .str ""
    ∧ extract_content env8 "http://a.example/" none =
        .ok { url := "http://a.example/",
              content := convert_content env8.mdFn (.str "") (resolveFormat none),
              format := resolveFormat none,
              type := detect_html_type env8.parse "<p>hi</p>" "http://a.example/",
              success := true } :=
  ⟨by decide, rfl,
   empty_extraction_success.2.2.1 env8 "http://a.example/" none "<p>hi</p>" "utf-8"
     (.other "NotADict") (by decide) rfl rfl⟩

/-- Claim C9: the weixin URL test is the case-insensitive substring test of
the two domain strings against the entire URL — the first conjunct equates
it to that disjunction — so any URL containing either substring anywhere
classifies as "weixin", and a URL containing neither never does. -/
theorem weixin_substring_test (parse : String → List HtmlElement) (html url : String) :
    urlIsWeixin url
      = (strContains (lowerStr url) "mp.weixin.qq.com"
         || strContains (lowerStr url) "weixin.qq.com")
    ∧ (strContains (lowerStr url) "mp.weixin.qq.com" = true
        ∨ strContains (lowerStr url) "weixin.qq.com" = true →
        detect_html_type parse html url = "weixin")
    ∧ (urlIsWeixin url = false → detect_html_type parse html url ≠ "weixin") := by
  refine ⟨?_, ?_, ?_⟩
  · simp [urlIsWeixin, weixin_domains]
  · intro h
    have hw : urlIsWeixin url = true := by
      rcases h with h | h <;> simp [urlIsWeixin, weixin_domains, h]
    simp [detect_html_type, hw]
  · intro h
    unfold detect_html_type
    rw [h]
    by_cases h2 : hasForumIndicator (parse html) <;> simp [h2]

/-- Claim C9 witness: a URL on an unrelated host carrying
"MP.WeiXin.QQ.com" in its query string classifies as "weixin" — even over a
page full of forum markup — because the test is a case-insensitive substring
match over the whole URL, not a host match. -/
theorem weixin_substring_test_witness :
    strContains (lowerStr "https://evil.example.org/page?ref=MP.WeiXin.QQ.com") "weixin.qq.com"
      = true
    ∧ detect_html_type (fun _ => [⟨some ["forumlist"], none⟩]) "<div class=forumlist></div>"
        "https://evil.example.org/page?ref=MP.WeiXin.QQ.com" = "weixin" :=
  ⟨by decide,
   (weixin_substring_test (fun _ => [⟨some ["forumlist"], none⟩]) "<div class=forumlist></div>"
     "https://evil.example.org/page?ref=MP.WeiXin.QQ.com").2.1 (Or.inr (by decide))⟩

/-- Claim C10: the '='-run deletion applies everywhere — its output never
contains three consecutive '=' (first conjunct), and the concrete conjuncts
show runs deleted inside a word and inside a link target — and the image
rewrite fires only on image links whose label is exactly empty: it is the
identity on any text without an occurrence of "![](", it inserts the fixed
placeholder label into an empty-label image link, and it leaves a labeled
image link unchanged. -/
theorem markdown_regex_scope :
    (∀ l : List Char, hasTriple '=' (removeEq l) = false)
    ∧ removeEq "a===b".data = "ab".data
    ∧ removeEq "[img](http://x===y.png)".data = "[img](http://xy.png)".data
    ∧ (∀ l : List Char, hasEmptyImg l = false → imgRewrite l = l)
    ∧ imgRewrite "![](http://a/b.png)".data = "![图片](http://a/b.png)".data
    ∧ imgRewrite "![cat](http://a/b.png)".data = "![cat](http://a/b.png)".data :=
  ⟨fun l => runCollapse_noTriple '=' emitEq emitEq_len l 0,
   by decide, by decide,
   fun l h => imgRewriteF_id l.length l h,
   by decide, by decide⟩

/-- Claim C10 witness: the image rewrite leaves a text whose only image link
is labeled unchanged. -/
theorem markdown_regex_scope_witness :
    hasEmptyImg "see ![labeled](u) here".data = false
    ∧ imgRewrite "see ![labeled](u) here".data = "see ![labeled](u) here".data :=
  ⟨by decide, markdown_regex_scope.2.2.2.1 "see ![labeled](u) here".data (by decide)⟩
